import Mathlib

/-!
Verification of the proxy-generation and caching core of `pkg/nuclide-rpc/lib/main.js`.

The JavaScript module keeps two module-level caches
(`definitionsCache : Map<string, Definitions>` and
`proxiesCache : Map<string, ProxyFactory>`) and exposes
`getDefinitions`, `getProxy`, `createProxyFactory`, plus the private helpers
`loadDefinitions`, `loadCodeAsModule` and `resolvePath`.

We embed this shallowly: the mutable caches and the fresh-object allocator of
the JavaScript heap become an explicit `RpcState` threaded through every
operation; object identity becomes a `Nat` id drawn from a monotone counter;
the external collaborators (`Module._resolveFilename`, `fs.readFileSync`,
`parseServiceDefinition`, `generateProxy`, `Module.prototype._compile`,
`nuclideUri.parsePath(..).name`) become fields of an `Env` record, since they
are out of scope for this module and may succeed or throw.  Each invocation of
an external collaborator is recorded in an event trace so that "the parser ran
exactly once" style properties are stateable.
-/

namespace NuclideRpc

/-- Errors that the embedded operations can propagate (thrown exceptions in
the JavaScript source).  `invariantViolation` models a failing
`invariant(x != null)` assertion. -/
inductive Err where
  | readError (msg : String)
  | parseError (msg : String)
  | generateError (msg : String)
  | loadError (msg : String)
  | invariantViolation
deriving DecidableEq

/-- Trace events: one per invocation of an external collaborator or of a
cached factory.  `parseEvt` records a `parseServiceDefinition` call (with the
resolved path it received), `generateEvt` a `generateProxy` call (with the
service name and preserve-names flag it received), `loadEvt` a
`loadCodeAsModule` call (with the synthetic filename), `injectEvt` the
`m.exports.inject(Rx.Observable, trackOperationTiming)` call, and `applyEvt`
an application of a factory (with the factory object's identity). -/
inductive Event where
  | parseEvt (resolvedPath : String)
  | generateEvt (serviceName : String) (preserveNames : Bool)
  | loadEvt (filename : String)
  | injectEvt
  | applyEvt (factoryId : Nat)
deriving DecidableEq

/-- The object returned by `parseServiceDefinition`: `oid` is its JavaScript
object identity (fresh per parse), `data` its structural content. -/
structure DefsObj where
  oid : Nat
  data : String
deriving DecidableEq

/-- The `module.exports` of a compiled proxy module: the `ProxyFactory`.
`eid` is its object identity (fresh per load), `code` the source it was
compiled from, `injected` whether `exports.inject` has been called on it. -/
structure FactoryObj where
  eid : Nat
  code : String
  injected : Bool
deriving DecidableEq

/-- A marshaling context (`RpcContext` in the source) is opaque to this
module; we represent it by a token. -/
abbrev Ctx := String

/-- The proxy object returned by one application of a factory to a context:
a fresh object (`pid`) produced by the factory (`factory`) and closed over
the context it was applied to (`ctx`). -/
structure ProxyObj where
  pid : Nat
  factory : FactoryObj
  ctx : Ctx
deriving DecidableEq

/-- A `new Module()` as configured by `loadCodeAsModule`. -/
structure NodeModule where
  filename : String
  id : String
  paths : List String
  exports : FactoryObj
deriving DecidableEq

/-- The mutable module-level state of `main.js`: the two caches, the
fresh-identity counter of the heap, and the instrumentation trace. -/
structure RpcState where
  definitionsCache : List (String × DefsObj)
  proxiesCache : List (String × FactoryObj)
  nextId : Nat
  events : List Event
deriving DecidableEq

/-- The initial state: both caches empty (`new Map()`). -/
def initState : RpcState := ⟨[], [], 0, []⟩

/-- `Map.prototype.get` / `Map.prototype.has` on an association list. -/
def assocLookup {α : Type} (k : String) : List (String × α) → Option α
  | [] => none
  | (k', v) :: rest => if k' = k then some v else assocLookup k rest

/-- `Map.prototype.set` on an association list: replace the binding if the
key is present, otherwise append it. -/
def assocSet {α : Type} (k : String) (v : α) : List (String × α) → List (String × α)
  | [] => [(k, v)]
  | (k', v') :: rest => if k' = k then (k, v) :: rest else (k', v') :: assocSet k v rest

/-- External collaborators of `main.js`, out of scope for this module.
`resolve` is `Module._resolveFilename(path, module.parent || module)`;
`readFile` is `fs.readFileSync(resolvedPath, 'utf8')`;
`parseServiceDefinition` and `generateProxy` are imported from
`./service-parser` and `./proxy-generator`; `compile` is the outcome of
`Module.prototype._compile` on generated code; `parsePathName` is
`nuclideUri.parsePath(path).name`. -/
structure Env where
  resolve : String → String
  readFile : String → Except Err String
  parseServiceDefinition : String → String → Except Err String
  generateProxy : String → Bool → String → Except Err String
  compile : String → Except Err Unit
  parsePathName : String → String

/-- Directory of `main.js` (`__dirname`). -/
def mainDirname : String := "pkg/nuclide-rpc/lib"

/-- `nuclideUri.join(dir, file)`. -/
def dirJoin (d f : String) : String := d ++ "/" ++ f

/-- Embedding of `resolvePath`: delegates to `Module._resolveFilename` under
the caller's module, an external collaborator. -/
def resolvePath (env : Env) (definitionPath : String) : String :=
  env.resolve definitionPath

/-- Embedding of `loadDefinitions`: resolve the path, read the file, parse it.
A successful parse allocates a fresh `DefsObj`; the `parseEvt` is recorded as
soon as `parseServiceDefinition` is invoked, whether or not it throws. -/
def loadDefinitions (env : Env) (definitionPath : String) (s : RpcState) :
    Except Err DefsObj × RpcState :=
  let resolvedPath := resolvePath env definitionPath
  match env.readFile resolvedPath with
  | Except.error e => (Except.error e, s)
  | Except.ok contents =>
    match env.parseServiceDefinition resolvedPath contents with
    | Except.error e =>
      (Except.error e, { s with events := Event.parseEvt resolvedPath :: s.events })
    | Except.ok d =>
      (Except.ok ⟨s.nextId, d⟩,
        { s with nextId := s.nextId + 1,
                 events := Event.parseEvt resolvedPath :: s.events })

/-- The tail of `getDefinitions`: `const result = definitionsCache.get(path);
invariant(result != null); return result;`. -/
def getCachedDefs (definitionPath : String) (s : RpcState) :
    Except Err DefsObj × RpcState :=
  match assocLookup definitionPath s.definitionsCache with
  | some r => (Except.ok r, s)
  | none => (Except.error Err.invariantViolation, s)

/-- Embedding of `getDefinitions`: on a `definitionsCache` miss, evaluate
`loadDefinitions` and `Map.set` the result (a thrown error aborts before the
set); then read the cache back. -/
def getDefinitions (env : Env) (definitionPath : String) (s : RpcState) :
    Except Err DefsObj × RpcState :=
  match assocLookup definitionPath s.definitionsCache with
  | some _ => getCachedDefs definitionPath s
  | none =>
    match loadDefinitions env definitionPath s with
    | (Except.error e, s1) => (Except.error e, s1)
    | (Except.ok obj, s1) =>
      getCachedDefs definitionPath
        { s1 with definitionsCache := assocSet definitionPath obj s1.definitionsCache }

/-- Embedding of `loadCodeAsModule`: make a fresh `Module`, set its
`filename`/`id` to `join(__dirname, filename)`, empty its lookup `paths`, and
`_compile` the code (recording a `loadEvt`; compilation may throw).  A
successful compile allocates the fresh exports object. -/
def loadCodeAsModule (env : Env) (code : String) (filename : String) (s : RpcState) :
    Except Err NodeModule × RpcState :=
  match env.compile code with
  | Except.error e =>
    (Except.error e, { s with events := Event.loadEvt filename :: s.events })
  | Except.ok _ =>
    (Except.ok
      ⟨dirJoin mainDirname filename, dirJoin mainDirname filename, [],
        ⟨s.nextId, code, false⟩⟩,
      { s with nextId := s.nextId + 1,
               events := Event.loadEvt filename :: s.events })

/-- Embedding of `createProxyFactory`: get the definitions, generate the proxy
code (recording a `generateEvt` when `generateProxy` is invoked), build the
synthetic filename from the definition path's base name, load the code as a
module, call `exports.inject(Rx.Observable, trackOperationTiming)` on it, and
return the exports.  No cache is read or written here beyond what
`getDefinitions` does. -/
def createProxyFactory (env : Env) (serviceName : String)
    (preserveFunctionNames : Bool) (definitionPath : String) (s : RpcState) :
    Except Err FactoryObj × RpcState :=
  match getDefinitions env definitionPath s with
  | (Except.error e, s1) => (Except.error e, s1)
  | (Except.ok defs, s1) =>
    let s2 := { s1 with
      events := Event.generateEvt serviceName preserveFunctionNames :: s1.events }
    match env.generateProxy serviceName preserveFunctionNames defs.data with
    | Except.error e => (Except.error e, s2)
    | Except.ok code =>
      let filename := env.parsePathName definitionPath ++ "Proxy.js"
      match loadCodeAsModule env code filename s2 with
      | (Except.error e, s3) => (Except.error e, s3)
      | (Except.ok m, s3) =>
        (Except.ok { m.exports with injected := true },
          { s3 with events := Event.injectEvt :: s3.events })

/-- One application of a factory to a context (`factory(clientObject)` in the
source): allocates a fresh proxy object bound to that context and records an
`applyEvt` carrying the factory's identity.  The factory receives only the
context; no other argument is passed at application time. -/
def applyFactory (f : FactoryObj) (ctx : Ctx) (s : RpcState) : ProxyObj × RpcState :=
  (⟨s.nextId, f, ctx⟩,
    { s with nextId := s.nextId + 1, events := Event.applyEvt f.eid :: s.events })

/-- The tail of `getProxy`: `const factory = proxiesCache.get(path);
invariant(factory != null); return factory(clientObject);`. -/
def getCachedProxy (definitionPath : String) (clientObject : Ctx) (s : RpcState) :
    Except Err ProxyObj × RpcState :=
  match assocLookup definitionPath s.proxiesCache with
  | some factory =>
    let r := applyFactory factory clientObject s
    (Except.ok r.1, r.2)
  | none => (Except.error Err.invariantViolation, s)

/-- Embedding of `getProxy`: on a `proxiesCache` miss, evaluate
`createProxyFactory(serviceName, false, definitionPath)` and `Map.set` the
result (a thrown error aborts before the set); then read the cache back and
apply the cached factory to the client object. -/
def getProxy (env : Env) (serviceName definitionPath : String)
    (clientObject : Ctx) (s : RpcState) : Except Err ProxyObj × RpcState :=
  match assocLookup definitionPath s.proxiesCache with
  | some _ => getCachedProxy definitionPath clientObject s
  | none =>
    match createProxyFactory env serviceName false definitionPath s with
    | (Except.error e, s1) => (Except.error e, s1)
    | (Except.ok f, s1) =>
      getCachedProxy definitionPath clientObject
        { s1 with proxiesCache := assocSet definitionPath f s1.proxiesCache }

/-- Does the event record a `parseServiceDefinition` invocation? -/
def Event.isParse : Event → Bool
  | parseEvt _ => true
  | _ => false

/-- Does the event record a `generateProxy` invocation? -/
def Event.isGenerate : Event → Bool
  | generateEvt _ _ => true
  | _ => false

/-- Does the event record a `loadCodeAsModule` invocation? -/
def Event.isLoad : Event → Bool
  | loadEvt _ => true
  | _ => false

/-- Does the event record an `exports.inject` invocation? -/
def Event.isInject : Event → Bool
  | injectEvt => true
  | _ => false

/-- Does the event record a factory application? -/
def Event.isApply : Event → Bool
  | applyEvt _ => true
  | _ => false

/-- The subtrace of parser invocations. -/
def parsesOf (l : List Event) : List Event := l.filter Event.isParse

/-- The subtrace of generator invocations. -/
def generatesOf (l : List Event) : List Event := l.filter Event.isGenerate

/-- The subtrace of loader invocations. -/
def loadsOf (l : List Event) : List Event := l.filter Event.isLoad

/-- The subtrace of `inject` invocations. -/
def injectsOf (l : List Event) : List Event := l.filter Event.isInject

/-- The subtrace of factory applications. -/
def appliesOf (l : List Event) : List Event := l.filter Event.isApply

/-- Node `require` resolution for a module: search each directory of
`m.paths` for the requested name in the process-wide registry of loadable
artifacts.  Modelled from Node module semantics; `loadCodeAsModule` sets
`m.paths = []` precisely to make this search empty ("Prevent accidental
requires by removing lookup paths."). -/
def resolveRequire (m : NodeModule) (name : String)
    (registry : List (String × String)) : Option String :=
  m.paths.findSome? fun dir => assocLookup (dirJoin dir name) registry

/-- The component of a path after its last separator (`path.parse(..).base`). -/
def lastComponent (cs : List Char) : List Char :=
  cs.foldl (fun acc c => if c = '/' then [] else acc ++ [c]) []

/-- The base name of a path without its extension
(`nuclideUri.parsePath(path).name`), used to instantiate `Env.parsePathName`
on concrete runs. -/
def pathBase (p : String) : String :=
  let cs := lastComponent p.data
  let stem :=
    if ('.' ∈ cs) then ((cs.reverse.dropWhile fun c => c ≠ '.').drop 1).reverse else cs
  String.mk stem

/-- A concrete environment for exercising the operations: resolution is the
identity, reading and parsing always succeed, generation produces code that
records the service name it was generated under, compilation succeeds. -/
def testEnv : Env :=
  ⟨fun p => p,
   fun _ => Except.ok (""),
   fun rp _ => Except.ok (rp),
   fun n _ d => Except.ok (n ++ ":" ++ d),
   fun _ => Except.ok (),
   pathBase⟩

/-- `testEnv` after the definition file's contents changed on disk. -/
def testEnv2 : Env :=
  { testEnv with
    readFile := fun _ => Except.ok ("changed"),
    parseServiceDefinition := fun rp c => Except.ok (rp ++ c) }

/-- `testEnv` with a generator that always throws. -/
def genFailEnv : Env :=
  { testEnv with generateProxy := fun _ _ _ => Except.error (Err.generateError ("boom")) }

/-- `testEnv` with a parser that always throws. -/
def parseFailEnv : Env :=
  { testEnv with parseServiceDefinition := fun _ _ => Except.error (Err.parseError ("bad")) }

/-- `testEnv` where every definition path resolves to one and the same file. -/
def aliasEnv : Env :=
  { testEnv with resolve := fun _ => ("same.def") }

/-- The concrete definition path used by the witnesses. -/
def wPath : String := "dir/service.def"

/-- The definitions object produced by the first parse of `wPath` under
`testEnv` from the initial state. -/
def wDefs0 : DefsObj := ⟨0, wPath⟩

/-- The state after `getDefinitions testEnv wPath initState`. -/
def wSd1 : RpcState := ⟨[(wPath, wDefs0)], [], 1, [Event.parseEvt wPath]⟩

/-- The factory built by the first `getProxy testEnv "svcA" wPath "ctx1"`. -/
def wF : FactoryObj := ⟨1, "svcA:dir/service.def", true⟩

/-- The state after the first `getProxy testEnv "svcA" wPath "ctx1"`. -/
def wS1p : RpcState :=
  ⟨[(wPath, wDefs0)], [(wPath, wF)], 3,
   [Event.applyEvt 1, Event.injectEvt, Event.loadEvt ("serviceProxy.js"),
    Event.generateEvt ("svcA") false, Event.parseEvt wPath]⟩

/-- The proxy returned by the first `getProxy` call. -/
def wPr1 : ProxyObj := ⟨2, wF, "ctx1"⟩

/-- The proxy returned by the second `getProxy` call (different context). -/
def wPr2 : ProxyObj := ⟨3, wF, "ctx2"⟩

/-- The state after the second `getProxy testEnv "svcB" wPath "ctx2"`. -/
def wS2p : RpcState :=
  ⟨[(wPath, wDefs0)], [(wPath, wF)], 4, Event.applyEvt 1 :: wS1p.events⟩

/-- The module built by loading code `code0` under filename `fProxy.js`. -/
def wModule : NodeModule :=
  ⟨dirJoin mainDirname ("fProxy.js"), dirJoin mainDirname ("fProxy.js"), [],
   ⟨0, "code0", false⟩⟩

/-- The state after that load. -/
def wSload : RpcState := ⟨[], [], 1, [Event.loadEvt ("fProxy.js")]⟩

/-- The factory returned by a direct
`createProxyFactory testEnv "MyService" true wPath` call. -/
def wCpfF : FactoryObj := ⟨1, "MyService:dir/service.def", true⟩

/-- The state after that direct `createProxyFactory` call. -/
def wCpfS : RpcState :=
  ⟨[(wPath, wDefs0)], [], 2,
   [Event.injectEvt, Event.loadEvt ("serviceProxy.js"),
    Event.generateEvt ("MyService") true, Event.parseEvt wPath]⟩

/-- The state after `getDefinitions parseFailEnv wPath initState` (the parse
threw). -/
def wSparseFail : RpcState := ⟨[], [], 0, [Event.parseEvt wPath]⟩

/-- The state after `getProxy genFailEnv "svc" wPath "ctx" initState` (the
generator threw after a successful parse). -/
def wSgenFail : RpcState :=
  ⟨[(wPath, wDefs0)], [], 1,
   [Event.generateEvt ("svc") false, Event.parseEvt wPath]⟩

/-- The factory built for path `a.def` under `aliasEnv`. -/
def waF1 : FactoryObj := ⟨1, "svc:same.def", true⟩

/-- The factory built for path `b.def` under `aliasEnv` (same resolved
file, distinct factory). -/
def waF2 : FactoryObj := ⟨4, "svc:same.def", true⟩

/-- The proxy from `getProxy aliasEnv "svc" "a.def" "c"`. -/
def waPr1 : ProxyObj := ⟨2, waF1, "c"⟩

/-- The proxy from the following `getProxy aliasEnv "svc" "b.def" "c"`. -/
def waPr2 : ProxyObj := ⟨5, waF2, "c"⟩

/-- The state after the `a.def` call under `aliasEnv`. -/
def waS1 : RpcState :=
  ⟨[("a.def", ⟨0, "same.def"⟩)], [("a.def", waF1)], 3,
   [Event.applyEvt 1, Event.injectEvt, Event.loadEvt ("aProxy.js"),
    Event.generateEvt ("svc") false, Event.parseEvt ("same.def")]⟩

/-- The state after the `b.def` call under `aliasEnv`. -/
def waS2 : RpcState :=
  ⟨[("a.def", ⟨0, "same.def"⟩), ("b.def", ⟨3, "same.def"⟩)],
   [("a.def", waF1), ("b.def", waF2)], 6,
   [Event.applyEvt 4, Event.injectEvt, Event.loadEvt ("bProxy.js"),
    Event.generateEvt ("svc") false, Event.parseEvt ("same.def"),
    Event.applyEvt 1, Event.injectEvt, Event.loadEvt ("aProxy.js"),
    Event.generateEvt ("svc") false, Event.parseEvt ("same.def")]⟩

theorem assocLookup_set_self {α : Type} (k : String) (v : α) (l : List (String × α)) :
    assocLookup k (assocSet k v l) = some v := by
  induction l with
  | nil => simp [assocSet, assocLookup]
  | cons hd tl ih =>
    obtain ⟨k', v'⟩ := hd
    by_cases h : k' = k
    · simp [assocSet, assocLookup, h]
    · simp [assocSet, assocLookup, h, ih]

theorem assocLookup_set_ne {α : Type} {k q : String} (v : α) (l : List (String × α))
    (h : q ≠ k) : assocLookup q (assocSet k v l) = assocLookup q l := by
  induction l with
  | nil =>
    simp [assocSet, assocLookup]
    intro hk
    exact absurd hk.symm h
  | cons hd tl ih =>
    obtain ⟨k', v'⟩ := hd
    by_cases hk : k' = k
    · subst hk
      have : ¬ k' = q := fun hh => h hh.symm
      simp [assocSet, assocLookup, this]
    · by_cases hq : k' = q
      · subst hq
        simp [assocSet, assocLookup, h]
      · simp [assocSet, assocLookup, hk, hq, ih]

/-- Case analysis on `loadDefinitions`: either `readFile` throws (no state
change), or the parser throws (one `parseEvt` recorded), or everything
succeeds and a fresh `DefsObj` carrying the current counter is returned. -/
theorem loadDefinitions_cases (env : Env) (p : String) (s : RpcState) :
    (∃ e, loadDefinitions env p s = (Except.error e, s)) ∨
    (∃ e, loadDefinitions env p s =
      (Except.error e,
        { s with events := Event.parseEvt (env.resolve p) :: s.events })) ∨
    (∃ d, loadDefinitions env p s =
      (Except.ok ⟨s.nextId, d⟩,
        { s with nextId := s.nextId + 1,
                 events := Event.parseEvt (env.resolve p) :: s.events })) := by
  rcases hr : env.readFile (env.resolve p) with e | c
  · exact Or.inl ⟨e, by simp [loadDefinitions, resolvePath, hr]⟩
  · rcases hp : env.parseServiceDefinition (env.resolve p) c with e | d
    · exact Or.inr (Or.inl ⟨e, by simp [loadDefinitions, resolvePath, hr, hp]⟩)
    · exact Or.inr (Or.inr ⟨d, by simp [loadDefinitions, resolvePath, hr, hp]⟩)

/-- On a cache hit, `getDefinitions` returns the cached object and changes
nothing, whatever the environment. -/
theorem getDefinitions_hit (env : Env) {p : String} {s : RpcState} {d : DefsObj}
    (h : assocLookup p s.definitionsCache = some d) :
    getDefinitions env p s = (Except.ok d, s) := by
  simp [getDefinitions, getCachedDefs, h]

/-- Full case analysis on `getDefinitions`. -/
theorem getDefinitions_cases (env : Env) (p : String) (s : RpcState) :
    (∃ d, assocLookup p s.definitionsCache = some d ∧
      getDefinitions env p s = (Except.ok d, s)) ∨
    (assocLookup p s.definitionsCache = none ∧
      ((∃ e, getDefinitions env p s = (Except.error e, s)) ∨
       (∃ e, getDefinitions env p s =
         (Except.error e,
           { s with events := Event.parseEvt (env.resolve p) :: s.events })) ∨
       (∃ d, getDefinitions env p s =
         (Except.ok ⟨s.nextId, d⟩,
           { s with
             definitionsCache := assocSet p ⟨s.nextId, d⟩ s.definitionsCache,
             nextId := s.nextId + 1,
             events := Event.parseEvt (env.resolve p) :: s.events })))) := by
  rcases hl : assocLookup p s.definitionsCache with _ | d
  · refine Or.inr ⟨rfl, ?_⟩
    rcases loadDefinitions_cases env p s with ⟨e, hld⟩ | ⟨e, hld⟩ | ⟨d, hld⟩
    · exact Or.inl ⟨e, by simp [getDefinitions, hl, hld]⟩
    · exact Or.inr (Or.inl ⟨e, by simp [getDefinitions, hl, hld]⟩)
    · refine Or.inr (Or.inr ⟨d, ?_⟩)
      simp [getDefinitions, hl, hld, getCachedDefs, assocLookup_set_self]
  · exact Or.inl ⟨d, rfl, getDefinitions_hit env hl⟩

/-- A successful `getDefinitions` leaves the returned object in the cache
under the path it was called with. -/
theorem getDefinitions_ok_lookup {env : Env} {p : String} {s : RpcState}
    {d : DefsObj} {s' : RpcState}
    (h : getDefinitions env p s = (Except.ok d, s')) :
    assocLookup p s'.definitionsCache = some d := by
  rcases getDefinitions_cases env p s with ⟨d0, hl, he⟩ | ⟨hl, he | he | he⟩
  · rw [he] at h
    simp only [Prod.mk.injEq, Except.ok.injEq] at h
    obtain ⟨h1, h2⟩ := h
    subst h1
    subst h2
    exact hl
  · obtain ⟨e, he⟩ := he
    rw [he] at h
    simp at h
  · obtain ⟨e, he⟩ := he
    rw [he] at h
    simp at h
  · obtain ⟨d0, he⟩ := he
    rw [he] at h
    simp only [Prod.mk.injEq, Except.ok.injEq] at h
    obtain ⟨h1, h2⟩ := h
    subst h1
    subst h2
    simp [assocLookup_set_self]

/-- `getDefinitions` never touches the proxies cache. -/
theorem getDefinitions_proxies (env : Env) (p : String) (s : RpcState) :
    ((getDefinitions env p s).2).proxiesCache = s.proxiesCache := by
  rcases getDefinitions_cases env p s with ⟨d, _, he⟩ | ⟨_, ⟨e, he⟩ | ⟨e, he⟩ | ⟨d, he⟩⟩ <;>
    rw [he]

/-- `getDefinitions` touches no definitions-cache key other than its path. -/
theorem getDefinitions_dc_other {q : String} (env : Env) (p : String) (s : RpcState)
    (h : q ≠ p) :
    assocLookup q ((getDefinitions env p s).2).definitionsCache =
      assocLookup q s.definitionsCache := by
  rcases getDefinitions_cases env p s with ⟨d, _, he⟩ | ⟨_, ⟨e, he⟩ | ⟨e, he⟩ | ⟨d, he⟩⟩ <;>
    rw [he]
  exact assocLookup_set_ne _ _ h

/-- A failing `getDefinitions` leaves both caches exactly as they were. -/
theorem getDefinitions_error {env : Env} {p : String} {s : RpcState} {e : Err}
    {s' : RpcState} (h : getDefinitions env p s = (Except.error e, s')) :
    s'.definitionsCache = s.definitionsCache ∧ s'.proxiesCache = s.proxiesCache := by
  rcases getDefinitions_cases env p s with ⟨d, _, he⟩ | ⟨_, ⟨e1, he⟩ | ⟨e1, he⟩ | ⟨d, he⟩⟩
  · rw [he] at h
    simp at h
  · rw [he] at h
    simp only [Prod.mk.injEq, Except.error.injEq] at h
    obtain ⟨_, h2⟩ := h
    subst h2
    exact ⟨rfl, rfl⟩
  · rw [he] at h
    simp only [Prod.mk.injEq, Except.error.injEq] at h
    obtain ⟨_, h2⟩ := h
    subst h2
    exact ⟨rfl, rfl⟩
  · rw [he] at h
    simp at h

/-- `getDefinitions` adds at most one parser event to the trace. -/
theorem getDefinitions_events (env : Env) (p : String) (s : RpcState) :
    ((getDefinitions env p s).2).events = s.events ∨
    ((getDefinitions env p s).2).events =
      Event.parseEvt (env.resolve p) :: s.events := by
  rcases getDefinitions_cases env p s with ⟨d, _, he⟩ | ⟨_, ⟨e, he⟩ | ⟨e, he⟩ | ⟨d, he⟩⟩ <;>
    rw [he]
  · exact Or.inl rfl
  · exact Or.inl rfl
  · exact Or.inr rfl
  · exact Or.inr rfl

/-- `getDefinitions` advances the allocation counter by zero or one. -/
theorem getDefinitions_nextId (env : Env) (p : String) (s : RpcState) :
    ((getDefinitions env p s).2).nextId = s.nextId ∨
    ((getDefinitions env p s).2).nextId = s.nextId + 1 := by
  rcases getDefinitions_cases env p s with ⟨d, _, he⟩ | ⟨_, ⟨e, he⟩ | ⟨e, he⟩ | ⟨d, he⟩⟩ <;>
    rw [he]
  · exact Or.inl rfl
  · exact Or.inl rfl
  · exact Or.inl rfl
  · exact Or.inr rfl

/-- Case analysis on `loadCodeAsModule`: the loader event is always recorded;
on success the fresh module has the synthetic filename as `filename` and
`id`, an empty `paths` list, and a fresh uninjected exports object. -/
theorem loadCodeAsModule_cases (env : Env) (c fn : String) (s : RpcState) :
    (∃ e, loadCodeAsModule env c fn s =
      (Except.error e, { s with events := Event.loadEvt fn :: s.events })) ∨
    (loadCodeAsModule env c fn s =
      (Except.ok ⟨dirJoin mainDirname fn, dirJoin mainDirname fn, [], ⟨s.nextId, c, false⟩⟩,
        { s with nextId := s.nextId + 1,
                 events := Event.loadEvt fn :: s.events })) := by
  rcases hc : env.compile c with e | u
  · exact Or.inl ⟨e, by simp [loadCodeAsModule, hc]⟩
  · exact Or.inr (by simp [loadCodeAsModule, hc])

/-- A successful `createProxyFactory` decomposes into a successful
`getDefinitions`, a successful `generateProxy` on its result, and a
successful load: the returned factory is the fresh injected exports object
and the trace gains inject, load and generate events over the
`getDefinitions` trace. -/
theorem createProxyFactory_ok_shape {env : Env} {n : String} {b : Bool}
    {p : String} {s : RpcState} {f : FactoryObj} {s' : RpcState}
    (h : createProxyFactory env n b p s = (Except.ok f, s')) :
    ∃ defs s1 code,
      getDefinitions env p s = (Except.ok defs, s1) ∧
      env.generateProxy n b defs.data = Except.ok code ∧
      f = ⟨s1.nextId, code, true⟩ ∧
      s' = { s1 with
        nextId := s1.nextId + 1,
        events := Event.injectEvt ::
          Event.loadEvt (env.parsePathName p ++ "Proxy.js") ::
          Event.generateEvt n b :: s1.events } := by
  rcases hgd : getDefinitions env p s with ⟨r1, s1⟩
  rcases r1 with e | defs
  · simp [createProxyFactory, hgd] at h
  · rcases hg : env.generateProxy n b defs.data with e | code
    · simp [createProxyFactory, hgd, hg] at h
    · rcases loadCodeAsModule_cases env code (env.parsePathName p ++ "Proxy.js")
        { s1 with events := Event.generateEvt n b :: s1.events } with ⟨e, hlc⟩ | hlc
      · simp [createProxyFactory, hgd, hg, hlc] at h
      · simp only [createProxyFactory, hgd, hg, hlc, Prod.mk.injEq,
          Except.ok.injEq] at h
        obtain ⟨h1, h2⟩ := h
        exact ⟨defs, s1, code, rfl, hg, h1.symm, h2.symm⟩

/-- `loadCodeAsModule` never touches the proxies cache. -/
theorem loadCodeAsModule_proxies (env : Env) (c fn : String) (s : RpcState) :
    ((loadCodeAsModule env c fn s).2).proxiesCache = s.proxiesCache := by
  rcases loadCodeAsModule_cases env c fn s with ⟨e, h⟩ | h <;> rw [h]

/-- `createProxyFactory` never reads or writes the proxies cache. -/
theorem createProxyFactory_proxies (env : Env) (n : String) (b : Bool)
    (p : String) (s : RpcState) :
    ((createProxyFactory env n b p s).2).proxiesCache = s.proxiesCache := by
  have hgd := getDefinitions_proxies env p s
  unfold createProxyFactory
  split
  next e s1 heq =>
    rw [heq] at hgd
    exact hgd
  next defs s1 heq =>
    rw [heq] at hgd
    split
    next e heqg => exact hgd
    next code heqg =>
      have hlc := loadCodeAsModule_proxies env code (env.parsePathName p ++ "Proxy.js")
        { s1 with events := Event.generateEvt n b :: s1.events }
      dsimp only
      split
      next e s3 heq2 =>
        rw [heq2] at hlc
        exact hlc.trans hgd
      next m s3 heq2 =>
        rw [heq2] at hlc
        exact hlc.trans hgd

/-- Case analysis on a successful `getProxy`: either the factory was cached
(one fresh application, no other change), or it was just built by
`createProxyFactory`, cached under the path, and applied once. -/
theorem getProxy_ok_shape {env : Env} {n p : String} {ctx : Ctx} {s : RpcState}
    {pr : ProxyObj} {s' : RpcState}
    (h : getProxy env n p ctx s = (Except.ok pr, s')) :
    (∃ f, assocLookup p s.proxiesCache = some f ∧
      pr = ⟨s.nextId, f, ctx⟩ ∧
      s' = { s with nextId := s.nextId + 1,
                    events := Event.applyEvt f.eid :: s.events }) ∨
    (assocLookup p s.proxiesCache = none ∧
      ∃ f s1, createProxyFactory env n false p s = (Except.ok f, s1) ∧
        pr = ⟨s1.nextId, f, ctx⟩ ∧
        s' = { s1 with
          proxiesCache := assocSet p f s1.proxiesCache,
          nextId := s1.nextId + 1,
          events := Event.applyEvt f.eid :: s1.events }) := by
  rcases hl : assocLookup p s.proxiesCache with _ | f
  · rcases hc : createProxyFactory env n false p s with ⟨rc, s1⟩
    rcases rc with e | f
    · simp [getProxy, hl, hc] at h
    · refine Or.inr ⟨rfl, f, s1, rfl, ?_⟩
      simp only [getProxy, hl, hc, getCachedProxy, assocLookup_set_self,
        applyFactory, Prod.mk.injEq, Except.ok.injEq] at h
      obtain ⟨h1, h2⟩ := h
      exact ⟨h1.symm, h2.symm⟩
  · refine Or.inl ⟨f, rfl, ?_⟩
    simp only [getProxy, getCachedProxy, applyFactory, hl, Prod.mk.injEq,
      Except.ok.injEq] at h
    obtain ⟨h1, h2⟩ := h
    exact ⟨h1.symm, h2.symm⟩

/-- A failing `getProxy` leaves the proxies cache exactly as it was. -/
theorem getProxy_error {env : Env} {n p : String} {ctx : Ctx} {s : RpcState}
    {e : Err} {s' : RpcState}
    (h : getProxy env n p ctx s = (Except.error e, s')) :
    s'.proxiesCache = s.proxiesCache := by
  rcases hl : assocLookup p s.proxiesCache with _ | f
  · rcases hc : createProxyFactory env n false p s with ⟨rc, s1⟩
    have hp := createProxyFactory_proxies env n false p s
    rw [hc] at hp
    rcases rc with e1 | f
    · simp only [getProxy, hl, hc, Prod.mk.injEq, Except.error.injEq] at h
      obtain ⟨_, h2⟩ := h
      subst h2
      exact hp
    · simp [getProxy, hl, hc, getCachedProxy, assocLookup_set_self, applyFactory] at h
  · simp [getProxy, getCachedProxy, applyFactory, hl] at h

@[simp] theorem parsesOf_parse (r : String) (l : List Event) :
    parsesOf (Event.parseEvt r :: l) = Event.parseEvt r :: parsesOf l := by
  simp [parsesOf, Event.isParse, List.filter]

@[simp] theorem parsesOf_generate (n : String) (b : Bool) (l : List Event) :
    parsesOf (Event.generateEvt n b :: l) = parsesOf l := by
  simp [parsesOf, Event.isParse, List.filter]

@[simp] theorem parsesOf_load (fn : String) (l : List Event) :
    parsesOf (Event.loadEvt fn :: l) = parsesOf l := by
  simp [parsesOf, Event.isParse, List.filter]

@[simp] theorem parsesOf_inject (l : List Event) :
    parsesOf (Event.injectEvt :: l) = parsesOf l := by
  simp [parsesOf, Event.isParse, List.filter]

@[simp] theorem parsesOf_apply (i : Nat) (l : List Event) :
    parsesOf (Event.applyEvt i :: l) = parsesOf l := by
  simp [parsesOf, Event.isParse, List.filter]

@[simp] theorem generatesOf_parse (r : String) (l : List Event) :
    generatesOf (Event.parseEvt r :: l) = generatesOf l := by
  simp [generatesOf, Event.isGenerate, List.filter]

@[simp] theorem generatesOf_generate (n : String) (b : Bool) (l : List Event) :
    generatesOf (Event.generateEvt n b :: l) = Event.generateEvt n b :: generatesOf l := by
  simp [generatesOf, Event.isGenerate, List.filter]

@[simp] theorem generatesOf_load (fn : String) (l : List Event) :
    generatesOf (Event.loadEvt fn :: l) = generatesOf l := by
  simp [generatesOf, Event.isGenerate, List.filter]

@[simp] theorem generatesOf_inject (l : List Event) :
    generatesOf (Event.injectEvt :: l) = generatesOf l := by
  simp [generatesOf, Event.isGenerate, List.filter]

@[simp] theorem generatesOf_apply (i : Nat) (l : List Event) :
    generatesOf (Event.applyEvt i :: l) = generatesOf l := by
  simp [generatesOf, Event.isGenerate, List.filter]

@[simp] theorem loadsOf_parse (r : String) (l : List Event) :
    loadsOf (Event.parseEvt r :: l) = loadsOf l := by
  simp [loadsOf, Event.isLoad, List.filter]

@[simp] theorem loadsOf_generate (n : String) (b : Bool) (l : List Event) :
    loadsOf (Event.generateEvt n b :: l) = loadsOf l := by
  simp [loadsOf, Event.isLoad, List.filter]

@[simp] theorem loadsOf_load (fn : String) (l : List Event) :
    loadsOf (Event.loadEvt fn :: l) = Event.loadEvt fn :: loadsOf l := by
  simp [loadsOf, Event.isLoad, List.filter]

@[simp] theorem loadsOf_inject (l : List Event) :
    loadsOf (Event.injectEvt :: l) = loadsOf l := by
  simp [loadsOf, Event.isLoad, List.filter]

@[simp] theorem loadsOf_apply (i : Nat) (l : List Event) :
    loadsOf (Event.applyEvt i :: l) = loadsOf l := by
  simp [loadsOf, Event.isLoad, List.filter]

@[simp] theorem injectsOf_parse (r : String) (l : List Event) :
    injectsOf (Event.parseEvt r :: l) = injectsOf l := by
  simp [injectsOf, Event.isInject, List.filter]

@[simp] theorem injectsOf_generate (n : String) (b : Bool) (l : List Event) :
    injectsOf (Event.generateEvt n b :: l) = injectsOf l := by
  simp [injectsOf, Event.isInject, List.filter]

@[simp] theorem injectsOf_load (fn : String) (l : List Event) :
    injectsOf (Event.loadEvt fn :: l) = injectsOf l := by
  simp [injectsOf, Event.isInject, List.filter]

@[simp] theorem injectsOf_inject (l : List Event) :
    injectsOf (Event.injectEvt :: l) = Event.injectEvt :: injectsOf l := by
  simp [injectsOf, Event.isInject, List.filter]

@[simp] theorem injectsOf_apply (i : Nat) (l : List Event) :
    injectsOf (Event.applyEvt i :: l) = injectsOf l := by
  simp [injectsOf, Event.isInject, List.filter]

@[simp] theorem appliesOf_parse (r : String) (l : List Event) :
    appliesOf (Event.parseEvt r :: l) = appliesOf l := by
  simp [appliesOf, Event.isApply, List.filter]

@[simp] theorem appliesOf_generate (n : String) (b : Bool) (l : List Event) :
    appliesOf (Event.generateEvt n b :: l) = appliesOf l := by
  simp [appliesOf, Event.isApply, List.filter]

@[simp] theorem appliesOf_load (fn : String) (l : List Event) :
    appliesOf (Event.loadEvt fn :: l) = appliesOf l := by
  simp [appliesOf, Event.isApply, List.filter]

@[simp] theorem appliesOf_inject (l : List Event) :
    appliesOf (Event.injectEvt :: l) = appliesOf l := by
  simp [appliesOf, Event.isApply, List.filter]

@[simp] theorem appliesOf_apply (i : Nat) (l : List Event) :
    appliesOf (Event.applyEvt i :: l) = Event.applyEvt i :: appliesOf l := by
  simp [appliesOf, Event.isApply, List.filter]

/-- Consequences of a successful `createProxyFactory`: the factory comes back
injected and fresh, the proxies cache is untouched, exactly one generator,
one loader and one inject event are recorded, no factory application happens,
no definitions-cache key other than the path is touched, and on a
definitions-cache miss the trace shows parse, generate, load, inject in
order and the freshly parsed object is cached under the path. -/
theorem createProxyFactory_ok_facts {env : Env} {n : String} {b : Bool}
    {p : String} {s : RpcState} {f : FactoryObj} {s' : RpcState}
    (h : createProxyFactory env n b p s = (Except.ok f, s')) :
    f.injected = true ∧
    s'.proxiesCache = s.proxiesCache ∧
    s.nextId ≤ f.eid ∧ f.eid < s'.nextId ∧ s.nextId < s'.nextId ∧
    generatesOf s'.events = Event.generateEvt n b :: generatesOf s.events ∧
    injectsOf s'.events = Event.injectEvt :: injectsOf s.events ∧
    loadsOf s'.events =
      Event.loadEvt (env.parsePathName p ++ "Proxy.js") :: loadsOf s.events ∧
    appliesOf s'.events = appliesOf s.events ∧
    (∀ q, q ≠ p →
      assocLookup q s'.definitionsCache = assocLookup q s.definitionsCache) ∧
    (assocLookup p s.definitionsCache = none →
      s'.events = Event.injectEvt ::
        Event.loadEvt (env.parsePathName p ++ "Proxy.js") ::
        Event.generateEvt n b :: Event.parseEvt (env.resolve p) :: s.events ∧
      parsesOf s'.events = Event.parseEvt (env.resolve p) :: parsesOf s.events ∧
      ∃ dd, assocLookup p s'.definitionsCache = some dd ∧ dd.oid = s.nextId) := by
  obtain ⟨defs, s1, code, hgd, hg, hf, hs⟩ := createProxyFactory_ok_shape h
  have hp : s1.proxiesCache = s.proxiesCache := by
    have hh := getDefinitions_proxies env p s
    rw [hgd] at hh
    exact hh
  have hnext : s1.nextId = s.nextId ∨ s1.nextId = s.nextId + 1 := by
    have hh := getDefinitions_nextId env p s
    rw [hgd] at hh
    exact hh
  have hev : s1.events = s.events ∨
      s1.events = Event.parseEvt (env.resolve p) :: s.events := by
    have hh := getDefinitions_events env p s
    rw [hgd] at hh
    exact hh
  subst hf
  subst hs
  refine ⟨rfl, hp, ?_, ?_, ?_, ?_, ?_, ?_, ?_, ?_, ?_⟩
  · show s.nextId ≤ s1.nextId
    rcases hnext with hh | hh <;> omega
  · show s1.nextId < s1.nextId + 1
    omega
  · show s.nextId < s1.nextId + 1
    rcases hnext with hh | hh <;> omega
  · show generatesOf (Event.injectEvt :: Event.loadEvt _ ::
      Event.generateEvt n b :: s1.events) = _
    rcases hev with hh | hh <;> simp [hh]
  · show injectsOf (Event.injectEvt :: Event.loadEvt _ ::
      Event.generateEvt n b :: s1.events) = _
    rcases hev with hh | hh <;> simp [hh]
  · show loadsOf (Event.injectEvt :: Event.loadEvt _ ::
      Event.generateEvt n b :: s1.events) = _
    rcases hev with hh | hh <;> simp [hh]
  · show appliesOf (Event.injectEvt :: Event.loadEvt _ ::
      Event.generateEvt n b :: s1.events) = _
    rcases hev with hh | hh <;> simp [hh]
  · intro q hq
    have hh := getDefinitions_dc_other env p s hq
    rw [hgd] at hh
    exact hh
  · intro hnone
    rcases getDefinitions_cases env p s with ⟨d0, hl0, _⟩ | ⟨_, he | he | he⟩
    · rw [hl0] at hnone
      cases hnone
    · obtain ⟨e, he⟩ := he
      rw [he] at hgd
      simp at hgd
    · obtain ⟨e, he⟩ := he
      rw [he] at hgd
      simp at hgd
    · obtain ⟨d, he⟩ := he
      rw [he] at hgd
      simp only [Prod.mk.injEq, Except.ok.injEq] at hgd
      obtain ⟨h1, h2⟩ := hgd
      subst h2
      refine ⟨by simp, by simp, ⟨s.nextId, d⟩, ?_, rfl⟩
      show assocLookup p (assocSet p ⟨s.nextId, d⟩ s.definitionsCache) = _
      rw [assocLookup_set_self]

/-- Consequences of a successful `getProxy`: the applied factory is cached
under the path, the returned proxy is fresh and bound to the supplied
context, exactly one application event is recorded, no cache key other than
the path is touched; and either the factory was already cached (nothing else
happens) or it was built by `createProxyFactory` during this call. -/
theorem getProxy_ok_facts {env : Env} {n p : String} {ctx : Ctx} {s : RpcState}
    {pr : ProxyObj} {s' : RpcState}
    (h : getProxy env n p ctx s = (Except.ok pr, s')) :
    assocLookup p s'.proxiesCache = some pr.factory ∧
    pr.ctx = ctx ∧
    pr.pid < s'.nextId ∧
    s.nextId < s'.nextId ∧
    appliesOf s'.events = Event.applyEvt pr.factory.eid :: appliesOf s.events ∧
    (∀ q, q ≠ p →
      assocLookup q s'.proxiesCache = assocLookup q s.proxiesCache) ∧
    (∀ q, q ≠ p →
      assocLookup q s'.definitionsCache = assocLookup q s.definitionsCache) ∧
    ((∃ f, assocLookup p s.proxiesCache = some f ∧ pr.factory = f ∧
        s' = { s with nextId := s.nextId + 1,
                      events := Event.applyEvt f.eid :: s.events }) ∨
     (assocLookup p s.proxiesCache = none ∧
        pr.factory.injected = true ∧
        s.nextId ≤ pr.factory.eid ∧ pr.factory.eid < s'.nextId ∧
        generatesOf s'.events = Event.generateEvt n false :: generatesOf s.events ∧
        injectsOf s'.events = Event.injectEvt :: injectsOf s.events ∧
        loadsOf s'.events =
          Event.loadEvt (env.parsePathName p ++ "Proxy.js") :: loadsOf s.events ∧
        (assocLookup p s.definitionsCache = none →
          parsesOf s'.events = Event.parseEvt (env.resolve p) :: parsesOf s.events ∧
          ∃ dd, assocLookup p s'.definitionsCache = some dd ∧ dd.oid = s.nextId))) := by
  rcases getProxy_ok_shape h with ⟨f, hl, hpr, hs⟩ | ⟨hl, f, s1, hc, hpr, hs⟩
  · subst hpr
    subst hs
    refine ⟨hl, rfl, ?_, ?_, by simp, fun q _ => rfl, fun q _ => rfl,
      Or.inl ⟨f, hl, rfl, rfl⟩⟩
    · show s.nextId < s.nextId + 1
      omega
    · show s.nextId < s.nextId + 1
      omega
  · obtain ⟨hinj, hpc, hle, hlt, hlt2, hgen, hinje, hload, happ, hdco, hmiss⟩ :=
      createProxyFactory_ok_facts hc
    subst hpr
    subst hs
    refine ⟨?_, rfl, ?_, ?_, ?_, ?_, ?_, Or.inr ⟨hl, hinj, ?_, ?_, ?_, ?_, ?_, ?_⟩⟩
    · show assocLookup p (assocSet p f s1.proxiesCache) = some f
      rw [assocLookup_set_self]
    · show s1.nextId < s1.nextId + 1
      omega
    · show s.nextId < s1.nextId + 1
      omega
    · show appliesOf (Event.applyEvt f.eid :: s1.events) = _
      simp [happ]
    · intro q hq
      show assocLookup q (assocSet p f s1.proxiesCache) = _
      rw [assocLookup_set_ne _ _ hq, hpc]
    · intro q hq
      exact hdco q hq
    · exact hle
    · show f.eid < s1.nextId + 1
      omega
    · show generatesOf (Event.applyEvt f.eid :: s1.events) = _
      simp [hgen]
    · show injectsOf (Event.applyEvt f.eid :: s1.events) = _
      simp [hinje]
    · show loadsOf (Event.applyEvt f.eid :: s1.events) = _
      simp [hload]
    · intro hdn
      obtain ⟨_, hpl, dd, hdd, hoid⟩ := hmiss hdn
      refine ⟨?_, dd, hdd, hoid⟩
      show parsesOf (Event.applyEvt f.eid :: s1.events) = _
      simp [hpl]

/-- Whatever its outcome, `createProxyFactory` adds either no generator event
or exactly the one carrying its own `serviceName` and preserve flag. -/
theorem createProxyFactory_generates (env : Env) (n : String) (b : Bool)
    (p : String) (s : RpcState) :
    generatesOf ((createProxyFactory env n b p s).2).events = generatesOf s.events ∨
    generatesOf ((createProxyFactory env n b p s).2).events =
      Event.generateEvt n b :: generatesOf s.events := by
  have hgdev := getDefinitions_events env p s
  rcases hgd : getDefinitions env p s with ⟨r1, s1⟩
  rw [hgd] at hgdev
  have hev : s1.events = s.events ∨
      s1.events = Event.parseEvt (env.resolve p) :: s.events := hgdev
  have h1 : generatesOf s1.events = generatesOf s.events := by
    rcases hev with hh | hh <;> simp [hh]
  rcases r1 with e | defs
  · left
    simp [createProxyFactory, hgd, h1]
  · rcases hg : env.generateProxy n b defs.data with e | code
    · right
      simp [createProxyFactory, hgd, hg, h1]
    · rcases loadCodeAsModule_cases env code (env.parsePathName p ++ "Proxy.js")
        { s1 with events := Event.generateEvt n b :: s1.events } with ⟨e, hlc⟩ | hlc
      · right
        simp [createProxyFactory, hgd, hg, hlc, h1]
      · right
        simp [createProxyFactory, hgd, hg, hlc, h1]

/-- Whatever its outcome, `getProxy` adds either no generator event or
exactly one, carrying its own `serviceName` and the flag `false`. -/
theorem getProxy_generates (env : Env) (n p : String) (ctx : Ctx) (s : RpcState) :
    generatesOf ((getProxy env n p ctx s).2).events = generatesOf s.events ∨
    generatesOf ((getProxy env n p ctx s).2).events =
      Event.generateEvt n false :: generatesOf s.events := by
  rcases hl : assocLookup p s.proxiesCache with _ | f
  · rcases hc : createProxyFactory env n false p s with ⟨rc, s1⟩
    have hcg := createProxyFactory_generates env n false p s
    rw [hc] at hcg
    have hcg2 : generatesOf s1.events = generatesOf s.events ∨
        generatesOf s1.events = Event.generateEvt n false :: generatesOf s.events := hcg
    rcases rc with e | f
    · rcases hcg2 with hh | hh
      · left
        simp [getProxy, hl, hc, hh]
      · right
        simp [getProxy, hl, hc, hh]
    · rcases hcg2 with hh | hh
      · left
        simp [getProxy, hl, hc, getCachedProxy, assocLookup_set_self, applyFactory, hh]
      · right
        simp [getProxy, hl, hc, getCachedProxy, assocLookup_set_self, applyFactory, hh]
  · left
    simp [getProxy, getCachedProxy, applyFactory, hl]

/-- A generator event of the raw trace survives into its generator subtrace. -/
theorem generate_mem_generatesOf {n' : String} {b' : Bool} {l : List Event}
    (h : Event.generateEvt n' b' ∈ l) :
    Event.generateEvt n' b' ∈ generatesOf l := by
  simp [generatesOf, List.mem_filter, h, Event.isGenerate]

/-- Membership in the generator subtrace implies membership in the trace. -/
theorem mem_of_mem_generatesOf {e : Event} {l : List Event}
    (h : e ∈ generatesOf l) : e ∈ l :=
  (List.mem_filter.mp h).1

/-- C1: for every path P, once `getDefinitions(P)` has succeeded, any later
call for P returns the identical cached `Definitions` object with no state
change at all — under any environment, so even if the underlying source file
has changed — and the parser ran exactly once for P (on a fresh path the
whole call added exactly one parse event to the trace). -/
theorem C1_getDefinitions_cached_identity (env : Env) (p : String) (s : RpcState)
    (d : DefsObj) (s' : RpcState)
    (h : getDefinitions env p s = (Except.ok d, s')) :
    (∀ env', getDefinitions env' p s' = (Except.ok d, s')) ∧
    (assocLookup p s.definitionsCache = none →
      s'.events = Event.parseEvt (env.resolve p) :: s.events) := by
  constructor
  · intro env'
    exact getDefinitions_hit env' (getDefinitions_ok_lookup h)
  · intro hnone
    rcases getDefinitions_cases env p s with ⟨d0, hl0, _⟩ | ⟨_, he | he | he⟩
    · rw [hl0] at hnone
      cases hnone
    · obtain ⟨e, he⟩ := he
      rw [he] at h
      simp at h
    · obtain ⟨e, he⟩ := he
      rw [he] at h
      simp at h
    · obtain ⟨d1, he⟩ := he
      rw [he] at h
      simp only [Prod.mk.injEq, Except.ok.injEq] at h
      obtain ⟨h1, h2⟩ := h
      subst h2
      rfl

/-- Witness for C1 at a concrete input: the first call parses once, and the
second call — under an environment in which the file's contents have changed
— still returns the identical object and identical state. -/
theorem C1_witness :
    getDefinitions testEnv wPath initState = (Except.ok wDefs0, wSd1) ∧
    getDefinitions testEnv2 wPath wSd1 = (Except.ok wDefs0, wSd1) ∧
    wSd1.events = Event.parseEvt (testEnv.resolve wPath) :: initState.events := by
  refine ⟨rfl, ?_, ?_⟩
  · exact (C1_getDefinitions_cached_identity testEnv wPath initState wDefs0 wSd1 rfl).1
      testEnv2
  · exact (C1_getDefinitions_cached_identity testEnv wPath initState wDefs0 wSd1 rfl).2
      rfl

/-- C2: two successful `getProxy` calls for the same path apply one and the
same cached factory object, each application is performed anew on the
context it was given, and the two calls return distinct proxy objects. -/
theorem C2_getProxy_shared_factory_fresh_proxies {env : Env} {n1 n2 p : String}
    {ctx1 ctx2 : Ctx} {s : RpcState} {pr1 pr2 : ProxyObj} {s1 s2 : RpcState}
    (h1 : getProxy env n1 p ctx1 s = (Except.ok pr1, s1))
    (h2 : getProxy env n2 p ctx2 s1 = (Except.ok pr2, s2)) :
    pr2.factory = pr1.factory ∧ pr1.ctx = ctx1 ∧ pr2.ctx = ctx2 ∧
    pr1.pid ≠ pr2.pid := by
  obtain ⟨hl1, hctx1, hpid1, _, _, _, _, _⟩ := getProxy_ok_facts h1
  rcases getProxy_ok_shape h2 with ⟨f, hl, hpr, _⟩ | ⟨hl, _⟩
  · rw [hl1] at hl
    have hf : f = pr1.factory := (Option.some.inj hl).symm
    subst hpr
    exact ⟨hf, hctx1, rfl, Nat.ne_of_lt hpid1⟩
  · rw [hl1] at hl
    cases hl

/-- Witness for C2 at a concrete input: two calls for `wPath` with contexts
`ctx1` and `ctx2` share the factory `wF` and yield distinct proxies. -/
theorem C2_witness :
    getProxy testEnv ("svcA") wPath ("ctx1") initState = (Except.ok wPr1, wS1p) ∧
    getProxy testEnv ("svcB") wPath ("ctx2") wS1p = (Except.ok wPr2, wS2p) ∧
    (wPr2.factory = wPr1.factory ∧ wPr1.ctx = "ctx1" ∧ wPr2.ctx = "ctx2" ∧
      wPr1.pid ≠ wPr2.pid) := by
  refine ⟨rfl, rfl, ?_⟩
  exact C2_getProxy_shared_factory_fresh_proxies
    (show getProxy testEnv ("svcA") wPath ("ctx1") initState =
      (Except.ok wPr1, wS1p) by rfl)
    (show getProxy testEnv ("svcB") wPath ("ctx2") wS1p =
      (Except.ok wPr2, wS2p) by rfl)

/-- C7: every module produced by `loadCodeAsModule` has an empty module
lookup path list, so resolving any `require` from it fails whatever
same-named artifacts the process-wide registry holds. -/
theorem C7_loadCodeAsModule_isolated {env : Env} {code filename : String}
    {s : RpcState} {m : NodeModule} {s' : RpcState}
    (h : loadCodeAsModule env code filename s = (Except.ok m, s')) :
    m.paths = [] ∧ ∀ name registry, resolveRequire m name registry = none := by
  rcases loadCodeAsModule_cases env code filename s with ⟨e, he⟩ | he
  · rw [he] at h
    simp at h
  · rw [he] at h
    simp only [Prod.mk.injEq, Except.ok.injEq] at h
    obtain ⟨h1, h2⟩ := h
    subst h1
    exact ⟨rfl, fun name registry => by simp [resolveRequire]⟩

/-- Witness for C7 at a concrete input: the loaded module has no lookup
paths and a `require` of an artifact present in the registry fails. -/
theorem C7_witness :
    wModule.paths = [] ∧
    resolveRequire wModule ("x") [(dirJoin ("a") ("x"), "artifact")] = none := by
  have hh := C7_loadCodeAsModule_isolated
    (show loadCodeAsModule testEnv ("code0") ("fProxy.js") initState =
      (Except.ok wModule, wSload) by rfl)
  exact ⟨hh.1, hh.2 ("x") [(dirJoin ("a") ("x"), "artifact")]⟩

/-- C8: whatever `getProxy` returns, every generator invocation it adds to
the trace carries its own `serviceName` and the preserve-names flag `false`:
`getProxy` passes `false` as `preserveFunctionNames` to
`createProxyFactory`, so this entry point can never produce a
name-preserving factory. -/
theorem C8_getProxy_preserve_names_false {env : Env} {n p : String} {ctx : Ctx}
    {s : RpcState} {r : Except Err ProxyObj} {s' : RpcState}
    (h : getProxy env n p ctx s = (r, s')) :
    ∀ n' b, Event.generateEvt n' b ∈ s'.events →
      Event.generateEvt n' b ∈ s.events ∨ (n' = n ∧ b = false) := by
  intro n' b hm
  have hgen := getProxy_generates env n p ctx s
  rw [h] at hgen
  have hgen2 : generatesOf s'.events = generatesOf s.events ∨
      generatesOf s'.events = Event.generateEvt n false :: generatesOf s.events :=
    hgen
  have hm2 := generate_mem_generatesOf hm
  rcases hgen2 with hh | hh
  · rw [hh] at hm2
    exact Or.inl (mem_of_mem_generatesOf hm2)
  · rw [hh] at hm2
    rcases List.mem_cons.mp hm2 with hh2 | hh2
    · injection hh2 with hn hb
      exact Or.inr ⟨hn, hb⟩
    · exact Or.inl (mem_of_mem_generatesOf hh2)

/-- Witness for C8 at a concrete input: the one generator event recorded by
a concrete `getProxy` run carries the flag `false`. -/
theorem C8_witness :
    Event.generateEvt ("svcA") false ∈ initState.events ∨
      (("svcA" : String) = "svcA" ∧ false = false) :=
  C8_getProxy_preserve_names_false
    (show getProxy testEnv ("svcA") wPath ("ctx1") initState =
      (Except.ok wPr1, wS1p) by rfl)
    ("svcA") false (by decide)

/-- C9: on a factory-cache hit `getProxy` ignores its `serviceName`
argument: when the cache for P is first filled by a call with service name
`n1`, the generator runs under `n1` (trace), and a later call with any other
service name returns a proxy produced by that very factory, running no
generator at all. -/
theorem C9_serviceName_ignored_on_hit {env : Env} {n1 n2 p : String}
    {ctx1 ctx2 : Ctx} {s : RpcState} {pr1 pr2 : ProxyObj} {s1 s2 : RpcState}
    (hmiss : assocLookup p s.proxiesCache = none)
    (h1 : getProxy env n1 p ctx1 s = (Except.ok pr1, s1))
    (h2 : getProxy env n2 p ctx2 s1 = (Except.ok pr2, s2)) :
    pr2.factory = pr1.factory ∧
    generatesOf s1.events = Event.generateEvt n1 false :: generatesOf s.events ∧
    generatesOf s2.events = generatesOf s1.events := by
  obtain ⟨hl1, _, _, _, _, _, _, hdisj⟩ := getProxy_ok_facts h1
  rcases hdisj with ⟨f, hf, _, _⟩ | ⟨_, _, _, _, hgen, _, _, _⟩
  · rw [hmiss] at hf
    cases hf
  · rcases getProxy_ok_shape h2 with ⟨f, hl, hpr, hs⟩ | ⟨hl, _⟩
    · rw [hl1] at hl
      have hf2 : f = pr1.factory := (Option.some.inj hl).symm
      subst hpr
      subst hs
      refine ⟨hf2, hgen, ?_⟩
      show generatesOf (Event.applyEvt f.eid :: s1.events) = generatesOf s1.events
      simp
    · rw [hl1] at hl
      cases hl

/-- Witness for C9 at a concrete input: the factory for `wPath` was
generated under service name `svcA`; the later call with `svcB` reuses it
and runs no generator. -/
theorem C9_witness :
    wPr2.factory = wPr1.factory ∧
    generatesOf wS1p.events =
      Event.generateEvt ("svcA") false :: generatesOf initState.events ∧
    generatesOf wS2p.events = generatesOf wS1p.events :=
  C9_serviceName_ignored_on_hit (rfl)
    (show getProxy testEnv ("svcA") wPath ("ctx1") initState =
      (Except.ok wPr1, wS1p) by rfl)
    (show getProxy testEnv ("svcB") wPath ("ctx2") wS1p =
      (Except.ok wPr2, wS2p) by rfl)

/-- C10: cache identity is the caller-supplied `definitionPath` string
exactly as given: two textually different paths that resolve to the same
file yield two parser runs on that same resolved file, two distinct parsed
objects cached under the two strings, and two distinct factories. -/
theorem C10_cache_key_is_literal_path {env : Env} {p1 p2 n : String} {ctx : Ctx}
    {s : RpcState} {pr1 pr2 : ProxyObj} {s1 s2 : RpcState}
    (hne : p1 ≠ p2)
    (hres : env.resolve p1 = env.resolve p2)
    (hd1 : assocLookup p1 s.definitionsCache = none)
    (hd2 : assocLookup p2 s.definitionsCache = none)
    (hp1 : assocLookup p1 s.proxiesCache = none)
    (hp2 : assocLookup p2 s.proxiesCache = none)
    (h1 : getProxy env n p1 ctx s = (Except.ok pr1, s1))
    (h2 : getProxy env n p2 ctx s1 = (Except.ok pr2, s2)) :
    pr1.factory.eid ≠ pr2.factory.eid ∧
    parsesOf s2.events = Event.parseEvt (env.resolve p1) ::
      Event.parseEvt (env.resolve p1) :: parsesOf s.events ∧
    (∃ d1 d2, assocLookup p1 s2.definitionsCache = some d1 ∧
      assocLookup p2 s2.definitionsCache = some d2 ∧ d1.oid ≠ d2.oid) := by
  obtain ⟨hl1, _, _, hnid1, _, hqpc1, hqdc1, hdisj1⟩ := getProxy_ok_facts h1
  rcases hdisj1 with ⟨f, hf, _, _⟩ | ⟨_, _, _, hlt1, _, _, _, hdm1⟩
  · rw [hp1] at hf
    cases hf
  · obtain ⟨hparse1, dd1, hdd1, hoid1⟩ := hdm1 hd1
    obtain ⟨hl2, _, _, hnid2, _, hqpc2, hqdc2, hdisj2⟩ := getProxy_ok_facts h2
    rcases hdisj2 with ⟨f, hf, _, _⟩ | ⟨_, _, hle2, _, _, _, _, hdm2⟩
    · rw [hqpc1 p2 (Ne.symm hne)] at hf
      rw [hp2] at hf
      cases hf
    · have hd2s1 : assocLookup p2 s1.definitionsCache = none := by
        rw [hqdc1 p2 (Ne.symm hne)]
        exact hd2
      obtain ⟨hparse2, dd2, hdd2, hoid2⟩ := hdm2 hd2s1
      refine ⟨Nat.ne_of_lt (lt_of_lt_of_le hlt1 hle2), ?_, dd1, dd2, ?_, hdd2, ?_⟩
      · rw [hparse2, ← hres, hparse1]
      · rw [hqdc2 p1 hne]
        exact hdd1
      · rw [hoid1, hoid2]
        exact Nat.ne_of_lt hnid1

/-- Witness for C10 at a concrete input: under `aliasEnv` the paths `a.def`
and `b.def` resolve to the same file `same.def`, the parser ran twice on it,
both keys hold distinct parsed objects, and the two factories are distinct.
-/
theorem C10_witness :
    waPr1.factory.eid ≠ waPr2.factory.eid ∧
    parsesOf waS2.events = Event.parseEvt (aliasEnv.resolve ("a.def")) ::
      Event.parseEvt (aliasEnv.resolve ("a.def")) :: parsesOf initState.events ∧
    (∃ d1 d2, assocLookup ("a.def") waS2.definitionsCache = some d1 ∧
      assocLookup ("b.def") waS2.definitionsCache = some d2 ∧
      d1.oid ≠ d2.oid) :=
  C10_cache_key_is_literal_path (by decide) rfl rfl rfl rfl rfl
    (show getProxy aliasEnv ("svc") ("a.def") ("c") initState =
      (Except.ok waPr1, waS1) by rfl)
    (show getProxy aliasEnv ("svc") ("b.def") ("c") waS1 =
      (Except.ok waPr2, waS2) by rfl)

/-- Counterexample to C3 as stated: `createProxyFactory` itself does not
cache.  At a concrete input, two direct calls to `createProxyFactory` for
the same path both run the generator (two generator events), and the
proxies cache stays empty — the later call did not return a cached factory.
-/
theorem C3_counterexample :
    generatesOf ((createProxyFactory testEnv ("MyService") true wPath
        ((createProxyFactory testEnv ("MyService") true wPath initState).2)).2).events =
      [Event.generateEvt ("MyService") true, Event.generateEvt ("MyService") true] ∧
    ((createProxyFactory testEnv ("MyService") true wPath
        ((createProxyFactory testEnv ("MyService") true wPath initState).2)).2).proxiesCache =
      [] := by
  exact ⟨rfl, rfl⟩

/-- C3 amended: a successful `createProxyFactory` invokes Registry, then
Synthesizer, then Loader in sequence (on a definitions-cache miss the trace
records parse, generate, load, inject in that order) but writes no factory
cache itself; the caching keyed by the path happens in `getProxy`, whose
later calls for the same path reuse the cached factory and run neither the
generator nor the loader again. -/
theorem C3_amended_pipeline_and_getProxy_caches (env : Env) (n : String)
    (b : Bool) (p : String) (s : RpcState) :
    (∀ f s', createProxyFactory env n b p s = (Except.ok f, s') →
      s'.proxiesCache = s.proxiesCache ∧
      (assocLookup p s.definitionsCache = none →
        s'.events = Event.injectEvt ::
          Event.loadEvt (env.parsePathName p ++ "Proxy.js") ::
          Event.generateEvt n b :: Event.parseEvt (env.resolve p) :: s.events)) ∧
    (∀ ctx pr1 s1, getProxy env n p ctx s = (Except.ok pr1, s1) →
      assocLookup p s1.proxiesCache = some pr1.factory ∧
      ∀ n2 ctx2 pr2 s2, getProxy env n2 p ctx2 s1 = (Except.ok pr2, s2) →
        pr2.factory = pr1.factory ∧
        generatesOf s2.events = generatesOf s1.events ∧
        loadsOf s2.events = loadsOf s1.events) := by
  constructor
  · intro f s' h
    obtain ⟨_, hpc, _, _, _, _, _, _, _, _, hmiss⟩ := createProxyFactory_ok_facts h
    exact ⟨hpc, fun hd => (hmiss hd).1⟩
  · intro ctx pr1 s1 h1
    obtain ⟨hl1, _, _, _, _, _, _, _⟩ := getProxy_ok_facts h1
    refine ⟨hl1, ?_⟩
    intro n2 ctx2 pr2 s2 h2
    rcases getProxy_ok_shape h2 with ⟨f, hl, hpr, hs⟩ | ⟨hl, _⟩
    · rw [hl1] at hl
      have hf : f = pr1.factory := (Option.some.inj hl).symm
      subst hpr
      subst hs
      refine ⟨hf, ?_, ?_⟩
      · show generatesOf (Event.applyEvt f.eid :: s1.events) = generatesOf s1.events
        simp
      · show loadsOf (Event.applyEvt f.eid :: s1.events) = loadsOf s1.events
        simp
    · rw [hl1] at hl
      cases hl

/-- Witness for the amended C3 at concrete inputs: the direct
`createProxyFactory` call left the proxies cache empty and its trace shows
parse, generate, load, inject in order; the `getProxy` pair for `wPath`
cached the factory and the second call generated and loaded nothing. -/
theorem C3_amended_witness :
    wCpfS.proxiesCache = initState.proxiesCache ∧
    wCpfS.events = Event.injectEvt ::
      Event.loadEvt (testEnv.parsePathName wPath ++ "Proxy.js") ::
      Event.generateEvt ("MyService") true ::
      Event.parseEvt (testEnv.resolve wPath) :: initState.events ∧
    assocLookup wPath wS1p.proxiesCache = some wPr1.factory ∧
    wPr2.factory = wPr1.factory ∧
    generatesOf wS2p.events = generatesOf wS1p.events := by
  have h1 := (C3_amended_pipeline_and_getProxy_caches testEnv ("MyService") true
      wPath initState).1 wCpfF wCpfS (by rfl)
  have h2 := (C3_amended_pipeline_and_getProxy_caches testEnv ("svcA") false
      wPath initState).2 ("ctx1") wPr1 wS1p (by rfl)
  have h3 := h2.2 ("svcB") ("ctx2") wPr2 wS2p (by rfl)
  exact ⟨h1.1, h1.2 (by rfl), h2.1, h3.1, h3.2.1⟩

/-- Counterexample to C4 as stated: when the generator throws during
`getProxy`, the error propagates but the definitions cache is NOT unchanged
— the successful parse that preceded the failure stays cached. -/
theorem C4_counterexample :
    (getProxy genFailEnv ("svc") wPath ("ctx") initState).1 =
      Except.error (Err.generateError ("boom")) ∧
    ((getProxy genFailEnv ("svc") wPath ("ctx") initState).2).definitionsCache ≠
      initState.definitionsCache := by
  exact ⟨rfl, by decide⟩

/-- C4 amended: a failing `getDefinitions` leaves both caches unchanged, and
a failing `getProxy` adds no entry to the proxies cache (though a parse that
succeeded before a generation/load failure stays in the definitions cache);
errors propagate synchronously as the returned value. -/
theorem C4_amended_error_leaves_caches (env : Env) (n p : String) (ctx : Ctx)
    (s : RpcState) :
    (∀ e s', getDefinitions env p s = (Except.error e, s') →
      s'.definitionsCache = s.definitionsCache ∧
      s'.proxiesCache = s.proxiesCache) ∧
    (∀ e s', getProxy env n p ctx s = (Except.error e, s') →
      s'.proxiesCache = s.proxiesCache) :=
  ⟨fun _ _ h => getDefinitions_error h, fun _ _ h => getProxy_error h⟩

/-- Witness for the amended C4 at concrete inputs: a failing parse leaves
both caches empty; a failing generation during `getProxy` leaves the proxies
cache empty. -/
theorem C4_amended_witness :
    wSparseFail.definitionsCache = initState.definitionsCache ∧
    wSparseFail.proxiesCache = initState.proxiesCache ∧
    wSgenFail.proxiesCache = initState.proxiesCache := by
  have h1 := (C4_amended_error_leaves_caches parseFailEnv ("svc") wPath ("ctx")
      initState).1 (Err.parseError ("bad")) wSparseFail (by rfl)
  have h2 := (C4_amended_error_leaves_caches genFailEnv ("svc") wPath ("ctx")
      initState).2 (Err.generateError ("boom")) wSgenFail (by rfl)
  exact ⟨h1.1, h1.2, h2⟩

/-- Counterexample to C5 as stated: the instrumentation (stream builder and
timing wrapper) is not passed as a parameter of each factory application.
In the concrete two-call `getProxy` run the factory is applied twice, yet
the injection of the instrumentation happened exactly once — at load time,
through the module's `inject` export. -/
theorem C5_counterexample :
    getProxy testEnv ("svcB") wPath ("ctx2") wS1p = (Except.ok wPr2, wS2p) ∧
    injectsOf wS2p.events = [Event.injectEvt] ∧
    appliesOf wS2p.events = [Event.applyEvt 1, Event.applyEvt 1] ∧
    (injectsOf wS2p.events).length ≠ (appliesOf wS2p.events).length := by
  exact ⟨rfl, rfl, rfl, by decide⟩

/-- C5 amended: the loaded proxy module exposes one factory; the future and
stream builders and the timing wrapper are supplied once per load, through
the module's exported `inject` function, before the factory is returned; a
factory application receives only the marshaling context and yields a fresh
proxy bound to it. -/
theorem C5_amended_inject_once_at_load {env : Env} {n : String} {b : Bool}
    {p : String} {s : RpcState} {f : FactoryObj} {s' : RpcState}
    (h : createProxyFactory env n b p s = (Except.ok f, s')) :
    f.injected = true ∧
    injectsOf s'.events = Event.injectEvt :: injectsOf s.events ∧
    (∀ (g : FactoryObj) (c : Ctx) (t : RpcState),
      (applyFactory g c t).1 = ⟨t.nextId, g, c⟩ ∧
      ((applyFactory g c t).2).events = Event.applyEvt g.eid :: t.events) := by
  obtain ⟨hinj, _, _, _, _, _, hinje, _, _, _, _⟩ := createProxyFactory_ok_facts h
  exact ⟨hinj, hinje, fun g c t => ⟨rfl, rfl⟩⟩

/-- Witness for the amended C5 at a concrete input. -/
theorem C5_amended_witness :
    wCpfF.injected = true ∧
    injectsOf wCpfS.events = Event.injectEvt :: injectsOf initState.events ∧
    ((applyFactory wCpfF ("ctxZ") wCpfS).1 = ⟨2, wCpfF, "ctxZ"⟩ ∧
      ((applyFactory wCpfF ("ctxZ") wCpfS).2).events =
        Event.applyEvt wCpfF.eid :: wCpfS.events) := by
  have hh := C5_amended_inject_once_at_load
    (show createProxyFactory testEnv ("MyService") true wPath initState =
      (Except.ok wCpfF, wCpfS) by rfl)
  exact ⟨hh.1, hh.2.1, hh.2.2 wCpfF ("ctxZ") wCpfS⟩

/-- Counterexample to C6 as stated: the synthetic module name is derived
from the definition path's base name, not from the service definition's
name.  At a concrete input with service name `MyService` and path
`dir/service.def`, the loader received `serviceProxy.js`, which is not
`MyService` + `Proxy.js`. -/
theorem C6_counterexample :
    createProxyFactory testEnv ("MyService") true wPath initState =
      (Except.ok wCpfF, wCpfS) ∧
    loadsOf wCpfS.events = [Event.loadEvt ("serviceProxy.js")] ∧
    ("serviceProxy.js" : String) ≠ "MyService" ++ "Proxy.js" := by
  exact ⟨rfl, rfl, by decide⟩

/-- C6 amended: the synthetic module name passed to the loader is
`parsePath(definitionPath).name + "Proxy.js"` — derived from the definition
path's base name — and serves only as the loaded module's
filename/identifier; every cache lookup and insertion is keyed by the
definition path, never by the synthetic name. -/
theorem C6_amended_synthetic_name_diagnostics_only {env : Env} {n : String}
    {b : Bool} {p : String} {s : RpcState} {f : FactoryObj} {s' : RpcState}
    (h : createProxyFactory env n b p s = (Except.ok f, s')) :
    loadsOf s'.events =
      Event.loadEvt (env.parsePathName p ++ "Proxy.js") :: loadsOf s.events ∧
    s'.proxiesCache = s.proxiesCache ∧
    (∀ q, assocLookup q s'.definitionsCache ≠ assocLookup q s.definitionsCache →
      q = p) := by
  obtain ⟨_, hpc, _, _, _, _, _, hload, _, hdco, _⟩ := createProxyFactory_ok_facts h
  refine ⟨hload, hpc, fun q hq => ?_⟩
  by_contra hne
  exact hq (hdco q hne)

/-- Witness for the amended C6 at a concrete input. -/
theorem C6_amended_witness :
    loadsOf wCpfS.events =
      Event.loadEvt (testEnv.parsePathName wPath ++ "Proxy.js") ::
        loadsOf initState.events ∧
    wCpfS.proxiesCache = initState.proxiesCache := by
  have hh := C6_amended_synthetic_name_diagnostics_only
    (show createProxyFactory testEnv ("MyService") true wPath initState =
      (Except.ok wCpfF, wCpfS) by rfl)
  exact ⟨hh.1, hh.2.1⟩

end NuclideRpc
